import Mathlib

/-!
Verification development for the `re-driftbottle` plugin (src/unnamed/part_002).

The plugin keeps two database tables, `bottle` and `comment`, and exposes a
family of chat-command actions over them.  Each action below is shallowly
embedded as a pure Lean function over an explicit database state.  External
collaborators (the message transport, the HTML-element parser `h.parse`, the
JS numeric parser, the regular-expression matcher, randomness) are passed in
as function parameters; the database semantics (`create` / `get` / `set` /
`remove` with equality and range filters) is modelled by list operations on
the state.
-/

namespace Driftbottle

/-- A row of the `bottle` table (interface `Bottle` in the source).
`commentCount` is an `Int` because its schema initial value is the sentinel
`-1`; `time` is the day-granularity creation stamp `Time.getDateNumber()`. -/
structure Bottle where
  id : Nat
  name : String
  uid : String
  gid : String
  cnid : String
  username : String
  content : String
  isHot : Nat
  commentCount : Int
  time : Int
deriving Repr, DecidableEq

/-- A row of the `comment` table (interface `Comment` in the source).
`cid` is the per-bottle 1-based sequence number, `bid` the owning bottle. -/
structure Comment where
  id : Nat
  cid : Nat
  bid : Nat
  uid : String
  gid : String
  cnid : String
  username : String
  content : String
  time : Int
deriving Repr, DecidableEq

/-- The persistent store: both tables plus the auto-increment counters the
database assigns `id` values from. -/
structure DB where
  bottles : List Bottle
  comments : List Comment
  nextBottleId : Nat
  nextCommentId : Nat
deriving Repr, DecidableEq

/-- `saveMode` configuration value. -/
inductive SaveMode | url | base64 | file
deriving Repr, DecidableEq

/-- The configuration options the modelled actions read. -/
structure Config where
  manager : List String
  allowPic : Bool
  allowDropOthers : Bool
  selfDrop : Bool
  preview : Bool
  maxRetry : Nat
  maxLength : Nat
  saveMode : SaveMode
  bottleLimit : Nat
  commentLimit : Nat
deriving Repr

/-- One element of parsed rich-text content, as returned by koishi's
`h.parse`: an element type tag and its `src` attribute (empty for plain
text spans). -/
structure Elem where
  type : String
  src : String
deriving Repr, DecidableEq

/-- The media element types the plugin scans for (`["img", "audio", "video"]`). -/
def mediaTypes : List String := ["img", "audio", "video"]

/-- The locally stored asset locators referenced by a content string: the
`src` of every media element whose locator starts with `"file"`.  These are
exactly the files the deletion actions `unlinkSync`.  The external parser
`h.parse` is passed in as `parse`. -/
def localAssets (parse : String → List Elem) (content : String) : List String :=
  (parse content).filterMap fun e =>
    if mediaTypes.contains e.type && e.src.startsWith "file" then some e.src else none

/-- The shared bounded-retry send loop: attempt `sends i`; on success stop
with `true`; on failure decrement the remaining retry budget and try the
next attempt; with the budget exhausted stop with `false`.  Calling it with
`budget = maxRetry` reproduces the source pattern
`retry++; if (retry > config.maxRetry) ...`: the body runs at most
`maxRetry + 1` times. -/
def retryLoop (sends : Nat → Bool) : Nat → Nat → Bool
  | budget, i =>
    if sends i then true
    else
      match budget with
      | 0 => false
      | b + 1 => retryLoop sends b (i + 1)

/-- The `cid` assignment of the 评论瓶子 action (lines 832-833):
`data.length === 0 ? 1 : Math.max(...data.map(c => c.cid)) + 1`. -/
def nextCid (comments : List Comment) (bid : Nat) : Nat :=
  let data := comments.filter (fun c => c.bid == bid)
  if data.length == 0 then 1
  else (data.map (fun c => c.cid)).foldr max 0 + 1

/-- The database insertion performed by the 评论瓶子 action (lines 832-843):
compute the next `cid` for the bottle and `create` the comment row. -/
def insertComment (db : DB) (bid : Nat) (uid gid cnid username content : String)
    (today : Int) : DB :=
  let cid := nextCid db.comments bid
  { db with
    comments := db.comments ++
      [⟨db.nextCommentId, cid, bid, uid, gid, cnid, username, content, today⟩],
    nextCommentId := db.nextCommentId + 1 }

/-- Outcome of the 删除评论 action. -/
inductive DeleteCommentOutcome
  | notFound
  | noPermission
  | deleted
deriving Repr, DecidableEq

/-- The 删除评论 action (lines 993-1009): look up the comment by
`(bid, cid)`; reject if missing or if the caller is neither a manager nor
the comment's author; otherwise unlink the comment's local asset files and
remove the row.  Note: the action does not touch the bottle's
`commentCount`. -/
def deleteComment (cfg : Config) (sessionUid : String) (parse : String → List Elem)
    (db : DB) (bid cid : Nat) : DeleteCommentOutcome × DB × List String :=
  match (db.comments.filter (fun c => c.bid == bid && c.cid == cid)).head? with
  | none => (.notFound, db, [])
  | some comment =>
    if !(cfg.manager.contains sessionUid) && sessionUid != comment.uid then
      (.noPermission, db, [])
    else
      (.deleted,
       { db with comments := db.comments.filter (fun c => !(c.bid == bid && c.cid == cid)) },
       localAssets parse comment.content)

/-- A quoted message (`session.event.message.quote`): the quoted user's id
and the quoted content. -/
structure Quote where
  uid : String
  content : String
deriving Repr, DecidableEq

/-- Outcome of the 扔漂流瓶 action; each constructor corresponds to one
return site of the source action. -/
inductive ThrowOutcome
  | titleNumeric
  | noContent
  | noPermission
  | tooShort
  | assetFailed
  | tooLong
  | posted
  | previewFailed
deriving Repr, DecidableEq

/-- The preview retry loop of the 扔漂流瓶 action (lines 515-547): try to
send the preview; on success the loop breaks with the row intact; once the
retry budget is exhausted the just-created bottle row `bid` is removed
(`ctx.database.remove('bottle', { id: preview.id })`). -/
def bottlePreviewLoop (sends : Nat → Bool) (db : DB) (bid : Nat) :
    Nat → Nat → ThrowOutcome × DB
  | budget, i =>
    if sends i then (.posted, db)
    else
      match budget with
      | 0 => (.previewFailed, { db with bottles := db.bottles.filter (fun b => !(b.id == bid)) })
      | b + 1 => bottlePreviewLoop sends db bid b (i + 1)

/-- The 扔漂流瓶 action (lines 385-552).  External collaborators are
parameters: `isNumericStr` is the JS test `!isNaN(+s)`, `stripTags` is the
regex replace `content.replace(/<.*?>/g, '')`, `extResult` is the result of
the asset-externalization retry loop (`some content` when it completed with
final content, `none` when its retry budget was exhausted), `sends i` is
the outcome of the `i`-th preview send attempt.  The source creates the
bottle row *before* externalization and the length check; only the `set` at
line 511 writes the externalized content back. -/
def throwBottle (cfg : Config) (db : DB)
    (sessionUid gid cnid username : String)
    (message : String) (quote : Option Quote) (title : Option String)
    (isNumericStr : String → Bool) (stripTags : String → String)
    (extResult : Option String) (sends : Nat → Bool) (today : Int) :
    ThrowOutcome × DB :=
  if (match title with | some t => isNumericStr t | none => false) then (.titleNumeric, db)
  else if message == "" && quote.isNone then (.noContent, db)
  else if (match quote with
           | some q => !(cfg.manager.contains sessionUid) && q.uid != sessionUid
                        && !cfg.allowDropOthers
           | none => false) then (.noPermission, db)
  else
    let uid := if cfg.selfDrop then sessionUid
               else (match quote with | some q => q.uid | none => sessionUid)
    let content0 := match quote with | some q => q.content | none => message
    let content1 := if cfg.allowPic then content0 else stripTags content0
    if content1.length < 1 then (.tooShort, db)
    else
      let bid := db.nextBottleId
      let db1 := { db with
        bottles := db.bottles ++
          [⟨bid, title.getD "", uid, gid, cnid, username, content1, 0, 0, today⟩],
        nextBottleId := bid + 1 }
      let extStep : Option String :=
        match cfg.saveMode with
        | .url => some content1
        | _ => extResult
      match extStep with
      | none =>
        (.assetFailed, { db1 with bottles := db1.bottles.filter (fun b => !(b.id == bid)) })
      | some content2 =>
        if content2.length > cfg.maxLength then (.tooLong, db1)
        else
          let db2 := { db1 with
            bottles := db1.bottles.map
              (fun b => if b.id == bid then { b with content := content2 } else b) }
          if cfg.preview then bottlePreviewLoop sends db2 bid cfg.maxRetry 0
          else (.posted, db2)

/-- Outcome of the preview retry loop of the 评论瓶子 action. -/
inductive CommentPreviewOutcome
  | sent
  | failedDeleted
deriving Repr, DecidableEq

/-- The preview retry loop of the 评论瓶子 action (lines 936-960): on a
successful send the bottle's `commentCount` is incremented; once the retry
budget is exhausted the just-created comment row `(bid, cid)` is removed
and `commentCount` is left untouched. -/
def commentPreviewLoop (sends : Nat → Bool) (db : DB) (bid cid : Nat) :
    Nat → Nat → CommentPreviewOutcome × DB
  | budget, i =>
    if sends i then
      let bumped := db.bottles.map
        (fun b => if b.id == bid then { b with commentCount := b.commentCount + 1 } else b)
      (.sent, { db with bottles := bumped })
    else
      match budget with
      | 0 => (.failedDeleted,
              { db with comments := db.comments.filter (fun c => !(c.bid == bid && c.cid == cid)) })
      | b + 1 => commentPreviewLoop sends db bid cid b (i + 1)

/-- Insertion sort on bottles by `id`, modelling `.orderBy('id', 'asc')`. -/
def insertById (b : Bottle) : List Bottle → List Bottle
  | [] => [b]
  | x :: xs => if b.id ≤ x.id then b :: x :: xs else x :: insertById b xs

/-- Sort a bottle list ascending by `id` (`.orderBy('id', 'asc')`). -/
def sortById (l : List Bottle) : List Bottle := l.foldr insertById []

/-- The `.limit(...).offset(...)` pagination of the source queries:
`limit = 0` means unpaginated (`Infinity` limit, `0` offset), otherwise
page `page` (1-based) of size `limit`. -/
def pageSlice (limit : Nat) (page : Nat) (l : List Bottle) : List Bottle :=
  if limit != 0 then (l.drop ((page - 1) * limit)).take limit else l

instance : Inhabited Bottle := ⟨⟨0, "", "", "", "", "", "", 0, 0, 0⟩⟩

/-- Outcome of the 捞漂流瓶 action; each constructor corresponds to one
return site of the source action (`listing` carries the disambiguation
entries, id and name, plus the total match count used for the page
footer). -/
inductive DrawOutcome
  | noBottles
  | notFound
  | listing (entries : List (Nat × String)) (total : Nat)
  | rendered (b : Bottle)
  | sendFailed
deriving Repr, DecidableEq

/-- The send retry loop of the 捞漂流瓶 action (lines 584-713): each
iteration re-picks `bottles[Random.int(0, bottles.length)]` (modelled by
`pick i bottles.length`) and attempts the send; success renders that
bottle, an exhausted budget reports the send failure.  The comment reads
inside the loop affect only the rendered text, not the outcome branch or
the store, and are elided. -/
def drawSendLoop (pick : Nat → Nat → Nat) (sends : Nat → Bool) (bottles : List Bottle) :
    Nat → Nat → DrawOutcome
  | budget, i =>
    let b := bottles.getD (pick i bottles.length) default
    if sends i then .rendered b
    else
      match budget with
      | 0 => .sendFailed
      | k + 1 => drawSendLoop pick sends bottles k (i + 1)

/-- The 捞漂流瓶 action (lines 554-715).  `rmatch` is the compiled regex
test `new RegExp(bottleId).test(name)` of the `$regex` filter, `toNum` the
JS string-to-number conversion used in the numeric branch, `pick` the
random index choice.  An absent or empty `bottleId` draws from all bottles
(JS `!bottleId`); a non-numeric one matches names with pagination by
`config.bottleLimit`; a numeric one fetches by id.  The action performs no
`create`, `set` or `remove` on the store. -/
def drawBottle (cfg : Config) (db : DB) (bottleId : Option String) (page : Option Nat)
    (isNumericStr : String → Bool) (rmatch : String → Bool) (toNum : String → Nat)
    (pick : Nat → Nat → Nat) (sends : Nat → Bool) : DrawOutcome × DB :=
  match bottleId with
  | none =>
    if db.bottles.length < 1 then (.noBottles, db)
    else (drawSendLoop pick sends db.bottles cfg.maxRetry 0, db)
  | some s =>
    if s == "" then
      if db.bottles.length < 1 then (.noBottles, db)
      else (drawSendLoop pick sends db.bottles cfg.maxRetry 0, db)
    else
      let bottles :=
        if !(isNumericStr s) then
          pageSlice cfg.bottleLimit (page.getD 1) (sortById (db.bottles.filter (fun b => rmatch b.name)))
        else db.bottles.filter (fun b => b.id == toNum s)
      if bottles.length < 1 then (.notFound, db)
      else if bottles.length > 1 then
        (.listing (bottles.map (fun b => (b.id, b.name)))
          ((db.bottles.filter (fun b => rmatch b.name)).length), db)
      else (drawSendLoop pick sends bottles cfg.maxRetry 0, db)

/-- Outcome of the 删除瓶子 action. -/
inductive DeleteBottleOutcome
  | notFound
  | noPermission
  | deleted
deriving Repr, DecidableEq

/-- The 删除瓶子 action (lines 967-991): look the bottle up; reject if
missing or if the caller is neither a manager nor the owner; otherwise
unlink the local asset files of the bottle and of all its comments, then
remove the bottle row and every comment row with this `bid`. -/
def deleteBottle (cfg : Config) (sessionUid : String) (parse : String → List Elem)
    (db : DB) (id : Nat) : DeleteBottleOutcome × DB × List String :=
  match (db.bottles.filter (fun b => b.id == id)).head? with
  | none => (.notFound, db, [])
  | some bottle =>
    if !(cfg.manager.contains sessionUid) && sessionUid != bottle.uid then
      (.noPermission, db, [])
    else
      let unlinked := localAssets parse bottle.content ++
        ((db.comments.filter (fun c => c.bid == id)).map
          (fun c => localAssets parse c.content)).flatten
      (.deleted,
       { db with
         bottles := db.bottles.filter (fun b => !(b.id == id)),
         comments := db.comments.filter (fun c => !(c.bid == id)) },
       unlinked)

/-- Outcome of the 删除过期瓶子 action. -/
inductive ExpireOutcome
  | noDays
  | noPermission
  | noneExpired
  | expired
deriving Repr, DecidableEq

/-- The ids of the bottles whose `time` lies strictly below `threshold`
(the set the expiry sweep deletes). -/
def expiredIds (db : DB) (threshold : Int) : List Nat :=
  (db.bottles.filter (fun b => decide (b.time < threshold))).map (fun b => b.id)

/-- The 删除过期瓶子 action (lines 1038-1051): with `threshold =
today - days`, remove every bottle with `time < threshold`, then every
comment with `time < threshold`, then every comment whose `bid` is among
the removed bottles.  The source performs no `unlinkSync` here, so the
unlink component is always empty. -/
def deleteExpiredBottles (cfg : Config) (sessionUid : String) (today : Int)
    (db : DB) (days : Nat) : ExpireOutcome × DB × List String :=
  if days == 0 then (.noDays, db, [])
  else if !(cfg.manager.contains sessionUid) then (.noPermission, db, [])
  else
    let threshold : Int := today - (days : Int)
    let expired := db.bottles.filter (fun b => decide (b.time < threshold))
    if expired.length < 1 then (.noneExpired, db, [])
    else
      let ids := expired.map (fun b => b.id)
      (.expired,
       { db with
         bottles := db.bottles.filter (fun b => !(decide (b.time < threshold))),
         comments := (db.comments.filter (fun c => !(decide (c.time < threshold)))).filter
           (fun c => !(ids.contains c.bid)) },
       [])

/-- Outcome of the 删除无效瓶子 action. -/
inductive PurgeOutcome
  | noPermission
  | badRange
  | cancelled
  | noneBroken
  | deletedBroken
  | cancelledDelete
deriving Repr, DecidableEq

/-- The 删除无效瓶子 bulk-purge action (lines 1053-1133): after a first
confirmation, re-send every bottle in the optional id range
(`sends b.id i` is the outcome of attempt `i` for bottle `b.id`); the
bottles whose retry budget is exhausted are recorded; after a second
confirmation exactly those bottle rows are removed
(`ctx.database.remove("bottle", { id: { $in: brokenBottle } })`).  The
source removes no comment rows and unlinks no asset files here.  The
malformed-argument path (start given without end) is elided by making the
range both-or-neither. -/
def deleteInvalidBottles (cfg : Config) (sessionUid : String)
    (sends : Nat → Nat → Bool) (confirm1 confirm2 : String)
    (db : DB) (range : Option (Nat × Nat)) : PurgeOutcome × DB :=
  let badRange : Bool := match range with | some (s, e) => decide (s > e) | none => false
  if !(cfg.manager.contains sessionUid) then (.noPermission, db)
  else if badRange then (.badRange, db)
  else if confirm1 != "是" then (.cancelled, db)
  else
    let sel : List Bottle := match range with
      | some (s, e) => db.bottles.filter (fun b => decide (s ≤ b.id) && decide (b.id ≤ e))
      | none => db.bottles
    let broken := (sel.filter (fun b => !(retryLoop (sends b.id) cfg.maxRetry 0))).map (fun b => b.id)
    if broken.length == 0 then (.noneBroken, db)
    else if confirm2 == "删除" then
      (.deletedBroken, { db with bottles := db.bottles.filter (fun b => !(broken.contains b.id)) })
    else (.cancelledDelete, db)

/-- The comment count of a bottle id: `count(Comment where bid = id)`. -/
def countFor (comments : List Comment) (bid : Nat) : Int :=
  ((comments.filter (fun c => c.bid == bid)).length : Int)

/-- The zero-initialized per-bottle tally of the startup backfill
(`for (let bottle of currentBottles) count[bottle.id] = 0`). -/
def initCounts (bottles : List Bottle) : List (Nat × Int) :=
  bottles.map (fun b => (b.id, 0))

/-- One step of the backfill tally (`count[comment.bid]++`).  A `bid` with
no entry is left alone; in the source such a dangling `bid` would create a
`NaN` entry, so the model is used only under the no-dangling-`bid`
hypothesis. -/
def bumpCounts (m : List (Nat × Int)) (bid : Nat) : List (Nat × Int) :=
  m.map (fun p => if p.1 == bid then (p.1, p.2 + 1) else p)

/-- The full backfill tally: fold all comments over the zero tally. -/
def tallied (db : DB) : List (Nat × Int) :=
  db.comments.foldl (fun m c => bumpCounts m c.bid) (initCounts db.bottles)

/-- The startup `commentCount` backfill (lines 194-216): if the *first*
bottle row's `commentCount` is the sentinel `-1`
(`currentBottles?.[0]?.commentCount === -1`), tally the comments per bottle
id and upsert every bottle's `commentCount` from the tally; otherwise do
nothing. -/
def startupBackfill (db : DB) : DB :=
  match db.bottles.head? with
  | none => db
  | some b0 =>
    if b0.commentCount == -1 then
      { db with bottles := db.bottles.map (fun b =>
          match (tallied db).lookup b.id with
          | some n => { b with commentCount := n }
          | none => b) }
    else db

/-- Outcome of the 命名瓶子 action. -/
inductive NameOutcome
  | notFound
  | noPermission
  | numericName
  | renamed
deriving Repr, DecidableEq

/-- The 命名瓶子 action (lines 1478-1493): the existence check
(`bottle.length == 0`) comes first, then the owner-or-manager permission
check, then the purely-numeric-name rejection, and only then the
`set`. -/
def nameBottle (cfg : Config) (sessionUid : String) (isNumericStr : String → Bool)
    (db : DB) (id : Nat) (nm : String) : NameOutcome × DB :=
  match db.bottles.filter (fun b => b.id == id) with
  | [] => (.notFound, db)
  | b0 :: _ =>
    if b0.uid != sessionUid && !(cfg.manager.contains sessionUid) then (.noPermission, db)
    else if isNumericStr nm then (.numericName, db)
    else
      let renamedRows := db.bottles.map
        (fun b => if b.id == id then { b with name := nm } else b)
      (.renamed, { db with bottles := renamedRows })

/-- Outcome of the 设置精选瓶子 action. -/
inductive SetHotOutcome
  | notFound
  | noPermission
  | done
deriving Repr, DecidableEq

/-- The 设置精选瓶子 action (lines 1625-1638): the existence check comes
first, then the manager-only permission check, then the `set` of
`isHot`. -/
def setHotBottle (cfg : Config) (sessionUid : String)
    (db : DB) (id : Nat) : SetHotOutcome × DB :=
  match db.bottles.filter (fun b => b.id == id) with
  | [] => (.notFound, db)
  | _ :: _ =>
    if !(cfg.manager.contains sessionUid) then (.noPermission, db)
    else
      let flaggedRows := db.bottles.map
        (fun b => if b.id == id then { b with isHot := 1 } else b)
      (.done, { db with bottles := flaggedRows })

/-! ### Concrete example states used by witnesses and counterexamples -/

/-- A basic configuration: manager `"m"`, pictures allowed, preview on,
`maxRetry = 0`, `maxLength = 500`, URL save mode, unpaginated listings. -/
def exCfg : Config := ⟨["m"], true, false, false, true, 0, 500, .url, 0, 0⟩

/-- Configuration for the over-length scenario: `base64` save mode and
`maxLength = 3`. -/
def exCfgLen : Config := ⟨["m"], true, false, false, true, 0, 3, .base64, 0, 0⟩

/-- Configuration with name-listing page size `bottleLimit = 1`. -/
def exCfgPage : Config := ⟨["m"], true, false, false, true, 0, 500, .url, 1, 0⟩

/-- An empty store. -/
def exDb0 : DB := ⟨[], [], 1, 1⟩

/-- A bottle owned by `"u"` whose `commentCount` cache is `1`. -/
def exBottle1 : Bottle := ⟨1, "", "u", "g", "c", "alice", "hello", 0, 1, 100⟩

/-- The single comment of `exBottle1`. -/
def exComment1 : Comment := ⟨1, 1, 1, "u", "g", "c", "alice", "hi", 100⟩

/-- Store holding `exBottle1` with its one comment. -/
def exDb1 : DB := ⟨[exBottle1], [exComment1], 2, 2⟩

/-- Store holding `exBottle1` with no comments yet. -/
def exDbNoComments : DB := ⟨[exBottle1], [], 2, 1⟩

/-- Store with two comments (cids 1 and 2) under bottle 1, built by two
insertions. -/
def exDb2 : DB :=
  insertComment (insertComment exDbNoComments 1 "u" "g" "c" "a" "x" 100) 1 "u" "g" "c" "a" "y" 100

/-- Two bottles with names sharing the prefix `"ab"`. -/
def exBottleA : Bottle := ⟨1, "abc", "u", "g", "c", "a", "x", 0, 0, 100⟩

/-- Second bottle whose name also matches the pattern. -/
def exBottleB : Bottle := ⟨2, "abd", "u", "g", "c", "a", "y", 0, 0, 100⟩

/-- Store with the two name-matching bottles. -/
def exDbNames : DB := ⟨[exBottleA, exBottleB], [], 3, 1⟩

/-- The name-pattern test for the examples: a matcher that accepts both
example names (as `new RegExp("ab")` would). -/
def exMatch : String → Bool := fun s => s == "abc" || s == "abd"

/-- The JS numeric test for the examples, on inputs that are not numeric. -/
def exIsNum : String → Bool := fun _ => false

/-- The JS string-to-number conversion for the examples (never reached). -/
def exToNum : String → Nat := fun _ => 0

/-- Store whose first bottle has a computed `commentCount` while the
second still holds the legacy sentinel `-1`. -/
def exDbSentinel : DB :=
  ⟨[{ exBottle1 with commentCount := 0 }, ⟨2, "", "u", "g", "c", "a", "w", 0, -1, 100⟩], [], 3, 1⟩

/-! ### C1 -/

/-- C1: the claim states that after any comment insertion or deletion
settles, `commentCount` equals the number of comment rows with this `bid`.
The 删除评论 action never updates `commentCount`: deleting the only
comment of a bottle whose cache is `1` leaves the cache at `1` while the
actual count is `0`, so the invariant fails. -/
theorem c1_commentCount_not_maintained :
    (deleteComment exCfg "u" (fun _ => []) exDb1 1 1).1 = .deleted
    ∧ ((deleteComment exCfg "u" (fun _ => []) exDb1 1 1).2.1.comments.filter
        (fun c => c.bid == 1)).length = 0
    ∧ ((deleteComment exCfg "u" (fun _ => []) exDb1 1 1).2.1.bottles.map
        (fun b => b.commentCount)) = [1] := by decide

/-! ### C3 -/

/-- C3: the claim states that an over-length post (measured after asset
externalization) is rejected with no state mutated, in particular with no
bottle row persisted.  The 扔漂流瓶 action creates the row *before* the
length check and the over-length return site does not remove it: posting
`"m1"` whose externalized content `"xxxxx"` exceeds `maxLength = 3` returns
the over-length rejection yet leaves bottle row 1 (still holding the
pre-externalization content) in the store. -/
theorem c3_overlength_row_persists :
    (throwBottle exCfgLen exDb0 "u" "g" "c" "alice" "m1" none none
      (fun _ => false) id (some "xxxxx") (fun _ => false) 100).1 = .tooLong
    ∧ ((throwBottle exCfgLen exDb0 "u" "g" "c" "alice" "m1" none none
      (fun _ => false) id (some "xxxxx") (fun _ => false) 100).2.bottles.map
        (fun b => (b.id, b.content))) = [(1, "m1")] := by decide

/-! ### C2 -/

/-- C2 counterexample: the claim states the set of `cid` values for a fixed
`bid` is exactly `{1..n}` (absent races), with its sources including the
删除评论 action.  Deleting the non-maximal comment `cid = 1` out of
`{1, 2}` and inserting again yields cids `{2, 3}`, not `{1, 2}`. -/
theorem c2_counterexample :
    (((insertComment (deleteComment exCfg "u" (fun _ => []) exDb2 1 1).2.1
        1 "u" "g" "c" "a" "z" 100).comments.filter (fun c => c.bid == 1)).map
          (fun c => c.cid)) = [2, 3]
    ∧ ([2, 3] : List Nat).toFinset ≠ Finset.Icc 1 2 := by decide

/-! ### C5 -/

/-- C5 counterexample: the claim states every bottle-deleting operation,
including the confirmed purge of undeliverable bottles, removes all comment
rows of the deleted bottle so that no orphaned comment rows remain.  The
删除无效瓶子 action removes only the broken bottle rows: purging bottle 1
(whose every send attempt fails) leaves its comment row behind as an
orphan. -/
theorem c5_counterexample :
    (deleteInvalidBottles exCfg "m" (fun _ _ => false) "是" "删除" exDb1 none).1
      = .deletedBroken
    ∧ (deleteInvalidBottles exCfg "m" (fun _ _ => false) "是" "删除" exDb1 none).2.bottles = []
    ∧ ((deleteInvalidBottles exCfg "m" (fun _ _ => false) "是" "删除" exDb1 none).2.comments.map
        (fun c => c.bid)) = [1] := by decide

/-! ### C7 -/

/-- C7 counterexample: the claim states that a non-numeric identifier
matching more than one bottle produces a disambiguation listing instead of
a render.  With the name-listing page size set to 1, the pattern `"ab"`
matches two bottles but the requested page holds a single row, and the
action renders that bottle instead of listing. -/
theorem c7_counterexample :
    (exDbNames.bottles.filter (fun b => exMatch b.name)).length = 2
    ∧ (drawBottle exCfgPage exDbNames (some "ab") none exIsNum exMatch exToNum
        (fun _ _ => 0) (fun _ => true)).1 = .rendered exBottleA := by decide

/-! ### C8 -/

/-- C8 counterexample: the claim states that the backfill runs whenever the
sentinel `-1` is present in the bottle table.  The startup check inspects
only the *first* row (`currentBottles?.[0]?.commentCount === -1`): with the
sentinel on the second row only, no backfill runs and that row keeps `-1`
although its true comment count is `0`. -/
theorem c8_counterexample :
    ((exDbSentinel.bottles.map (fun b => b.commentCount)).contains (-1)) = true
    ∧ countFor exDbSentinel.comments 2 = 0
    ∧ ((startupBackfill exDbSentinel).bottles.map (fun b => b.commentCount)) = [0, -1] := by
  decide

/-! ### Helper lemmas -/

/-- Filtering by `p` after keeping only the elements failing `p` yields
nothing. -/
theorem filter_of_filter_not {α : Type} (p : α → Bool) (l : List α) :
    (l.filter (fun x => !(p x))).filter p = [] := by
  rw [List.filter_filter]
  apply List.filter_eq_nil_iff.mpr
  intro a _
  simp

/-! ### C6 -/

/-- C6: when every preview send attempt fails, the preview retry loops of
扔漂流瓶 and 评论瓶子 exhaust their budget and delete the just-created
row: no bottle row with the created id, and no comment row with the
created `(bid, cid)`, survives. -/
theorem c6_preview_exhaust_deletes (sends : Nat → Bool) (db : DB) (bid cid : Nat)
    (budget i : Nat) (h : ∀ j, sends j = false) :
    ((bottlePreviewLoop sends db bid budget i).2.bottles.filter (fun b => b.id == bid)) = []
    ∧ ((commentPreviewLoop sends db bid cid budget i).2.comments.filter
        (fun c => c.bid == bid && c.cid == cid)) = [] := by
  induction budget generalizing i with
  | zero =>
    unfold bottlePreviewLoop commentPreviewLoop
    rw [h i]
    simp only [Bool.false_eq_true, if_false]
    exact ⟨filter_of_filter_not _ _, filter_of_filter_not _ _⟩
  | succ b ih =>
    unfold bottlePreviewLoop commentPreviewLoop
    rw [h i]
    simp only [Bool.false_eq_true, if_false]
    exact ih (i + 1)

/-- C6 witness: with a send that always fails and retry budget 2, both
loops delete the created row of `exDb1`. -/
theorem c6_witness :
    ((bottlePreviewLoop (fun _ => false) exDb1 1 2 0).2.bottles.filter
        (fun b => b.id == 1)) = []
    ∧ ((commentPreviewLoop (fun _ => false) exDb1 1 1 2 0).2.comments.filter
        (fun c => c.bid == 1 && c.cid == 1)) = [] :=
  c6_preview_exhaust_deletes (fun _ => false) exDb1 1 1 2 0 (fun _ => rfl)

/-! ### C10 -/

/-- C10: the 捞漂流瓶 action is read-only: whatever the identifier, page,
match function, randomness and send outcomes, the resulting store equals
the input store — the action performs no create, set, or remove on the
bottle or comment tables. -/
theorem c10_draw_readonly (cfg : Config) (db : DB) (bottleId : Option String)
    (page : Option Nat) (isNum rm : String → Bool) (toNum : String → Nat)
    (pick : Nat → Nat → Nat) (sends : Nat → Bool) :
    (drawBottle cfg db bottleId page isNum rm toNum pick sends).2 = db := by
  unfold drawBottle
  cases bottleId <;> dsimp only [] <;> (repeat' split) <;> rfl

/-! ### C9 -/

/-- C9: in 设置精选瓶子 and 命名瓶子 the existence check precedes the
permission check: any caller invoking them with a nonexistent bottle id
gets the not-found outcome, and a non-owner non-manager invoking them on
an existing bottle gets the permission-denied outcome; in all four cases
the store is unchanged. -/
theorem c9_existence_before_permission (cfg : Config) (uidAny uidN : String)
    (isNum : String → Bool) (db : DB) (idM idE : Nat) (nm : String)
    (b : Bottle) (bs : List Bottle)
    (h1 : db.bottles.filter (fun x => x.id == idM) = [])
    (h2 : db.bottles.filter (fun x => x.id == idE) = b :: bs)
    (h3 : b.uid ≠ uidN) (h4 : cfg.manager.contains uidN = false) :
    setHotBottle cfg uidAny db idM = (.notFound, db)
    ∧ nameBottle cfg uidAny isNum db idM nm = (.notFound, db)
    ∧ setHotBottle cfg uidN db idE = (.noPermission, db)
    ∧ nameBottle cfg uidN isNum db idE nm = (.noPermission, db) := by
  unfold setHotBottle nameBottle
  have h3' : (b.uid != uidN) = true := bne_iff_ne.mpr h3
  rw [h1, h2]
  dsimp only []
  refine ⟨rfl, rfl, ?_, ?_⟩
  · rw [h4]; rfl
  · rw [h4, h3']; rfl

/-- C9 witness: with one bottle (id 1, owner `"u"`), the id 2 lookups by
any caller yield not-found and the id 1 operations by the non-manager
stranger `"s"` yield permission-denied, all without touching the store. -/
theorem c9_witness :
    setHotBottle exCfg "anyone" exDb1 2 = (.notFound, exDb1)
    ∧ nameBottle exCfg "anyone" exIsNum exDb1 2 "nm" = (.notFound, exDb1)
    ∧ setHotBottle exCfg "s" exDb1 1 = (.noPermission, exDb1)
    ∧ nameBottle exCfg "s" exIsNum exDb1 1 "nm" = (.noPermission, exDb1) :=
  c9_existence_before_permission exCfg "anyone" "s" exIsNum exDb1 2 1 "nm"
    exBottle1 [] (by decide) (by decide) (by decide) (by decide)

/-! ### C4 -/

/-- C4: with a manager caller and a positive day threshold, provided every
comment's `bid` names a stored bottle at least as old as the comment (true
of every comment created by the plugin, which stamps comments at creation
time after their bottle), the expiry sweep keeps exactly the bottles of
age at most `days` (so a bottle at exactly age `days` survives) and
exactly the comments of surviving bottles: the bottles deleted are exactly
those with `time < today - days`, and the comments deleted are exactly
those of deleted bottles. -/
theorem c4_expiry_exact (cfg : Config) (uid : String) (today : Int) (db : DB) (days : Nat)
    (hm : cfg.manager.contains uid = true) (hd : days ≠ 0)
    (ht : ∀ c ∈ db.comments, ∃ b ∈ db.bottles, b.id = c.bid ∧ b.time ≤ c.time) :
    (deleteExpiredBottles cfg uid today db days).2.1.bottles
      = db.bottles.filter (fun b => !(decide (b.time < today - (days : Int))))
    ∧ (deleteExpiredBottles cfg uid today db days).2.1.comments
      = db.comments.filter
          (fun c => !((expiredIds db (today - (days : Int))).contains c.bid)) := by
  have hd' : (days == 0) = false := beq_eq_false_iff_ne.mpr hd
  unfold deleteExpiredBottles
  rw [hd', hm]
  dsimp only []
  by_cases hlen : (db.bottles.filter (fun b => decide (b.time < today - (days : Int)))).length < 1
  · rw [if_pos hlen]
    have hexp : db.bottles.filter (fun b => decide (b.time < today - (days : Int))) = [] :=
      List.length_eq_zero.mp (by omega)
    have hids : expiredIds db (today - (days : Int)) = [] := by
      unfold expiredIds
      rw [hexp]
      rfl
    constructor
    · symm
      apply List.filter_eq_self.mpr
      intro a ha
      have := List.filter_eq_nil_iff.mp hexp a ha
      simpa using this
    · symm
      apply List.filter_eq_self.mpr
      intro c _
      rw [hids]
      rfl
  · rw [if_neg hlen]
    refine ⟨rfl, ?_⟩
    rw [List.filter_filter]
    apply List.filter_congr
    intro c hc
    cases hb : ((expiredIds db (today - (days : Int))).contains c.bid) with
    | true =>
      unfold expiredIds at hb
      rw [hb]
      rfl
    | false =>
      unfold expiredIds at hb
      rw [hb]
      simp only [Bool.not_false, Bool.true_and, Bool.not_eq_true', decide_eq_false_iff_not]
      intro hlt
      obtain ⟨bb, hbmem, hbeq, hble⟩ := ht c hc
      have hbb : bb ∈ db.bottles.filter (fun b => decide (b.time < today - (days : Int))) :=
        List.mem_filter.mpr ⟨hbmem, by simpa using lt_of_le_of_lt hble hlt⟩
      have hmemids : c.bid ∈
          (db.bottles.filter (fun b => decide (b.time < today - (days : Int)))).map
            (fun b => b.id) :=
        List.mem_map.mpr ⟨bb, hbb, hbeq⟩
      have hcont :
          ((db.bottles.filter (fun b => decide (b.time < today - (days : Int)))).map
            (fun b => b.id)).contains c.bid = true :=
        List.elem_iff.mpr hmemids
      rw [hcont] at hb
      cases hb

/-- C4 witness: manager `"m"`, today 100, threshold 5 days: the bottle of
age 6 and its comment are deleted, the bottle of age exactly 5 and its
comment survive. -/
theorem c4_witness :
    (deleteExpiredBottles exCfg "m" 100
        ⟨[⟨1, "", "u", "g", "c", "a", "x", 0, 0, 94⟩, ⟨2, "", "u", "g", "c", "a", "y", 0, 0, 95⟩],
         [⟨1, 1, 1, "u", "g", "c", "a", "h", 94⟩, ⟨2, 1, 2, "u", "g", "c", "a", "h", 95⟩], 3, 3⟩
        5).2.1.bottles
      = ([⟨1, "", "u", "g", "c", "a", "x", 0, 0, 94⟩,
          ⟨2, "", "u", "g", "c", "a", "y", 0, 0, 95⟩] : List Bottle).filter
          (fun b => !(decide (b.time < 100 - ((5 : Nat) : Int))))
    ∧ (deleteExpiredBottles exCfg "m" 100
        ⟨[⟨1, "", "u", "g", "c", "a", "x", 0, 0, 94⟩, ⟨2, "", "u", "g", "c", "a", "y", 0, 0, 95⟩],
         [⟨1, 1, 1, "u", "g", "c", "a", "h", 94⟩, ⟨2, 1, 2, "u", "g", "c", "a", "h", 95⟩], 3, 3⟩
        5).2.1.comments
      = ([⟨1, 1, 1, "u", "g", "c", "a", "h", 94⟩,
          ⟨2, 1, 2, "u", "g", "c", "a", "h", 95⟩] : List Comment).filter
          (fun c => !((expiredIds
              ⟨[⟨1, "", "u", "g", "c", "a", "x", 0, 0, 94⟩, ⟨2, "", "u", "g", "c", "a", "y", 0, 0, 95⟩],
               [⟨1, 1, 1, "u", "g", "c", "a", "h", 94⟩, ⟨2, 1, 2, "u", "g", "c", "a", "h", 95⟩], 3, 3⟩
              (100 - ((5 : Nat) : Int))).contains c.bid)) :=
  c4_expiry_exact exCfg "m" 100
    ⟨[⟨1, "", "u", "g", "c", "a", "x", 0, 0, 94⟩, ⟨2, "", "u", "g", "c", "a", "y", 0, 0, 95⟩],
     [⟨1, 1, 1, "u", "g", "c", "a", "h", 94⟩, ⟨2, 1, 2, "u", "g", "c", "a", "h", 95⟩], 3, 3⟩
    5 (by decide) (by decide) (by decide)

/-! ### C2 amended -/

/-- `n` successive comment insertions on the same bottle (the repeated
happy path of 评论瓶子 with no interleaved deletion). -/
def insertCommentN (db : DB) (bid : Nat) (uid gid cnid username content : String)
    (today : Int) : Nat → DB
  | 0 => db
  | n + 1 =>
    insertComment (insertCommentN db bid uid gid cnid username content today n)
      bid uid gid cnid username content today

/-- Folding `max` over a list bounded by the seed returns the seed. -/
theorem foldr_max_of_le (l : List Nat) (b : Nat) (h : ∀ a ∈ l, a ≤ b) :
    l.foldr max b = b := by
  induction l with
  | nil => rfl
  | cons a t ih =>
    simp only [List.foldr_cons]
    rw [ih (fun x hx => h x (List.mem_cons_of_mem a hx))]
    exact Nat.max_eq_right (h a (List.mem_cons_self a t))

/-- C2 amended: inserting into a bottle whose comments form the initial
segment delivers `cid = max + 1` (or `1` on an empty comment set), so
absent deletions the cids of a bottle are exactly `1..n`: starting from a
store with no comments for `bid`, after `n` insertions the comment rows of
`bid` carry exactly the cids `1, 2, ..., n` in order, and the next
insertion would be assigned `cid = n + 1`. -/
theorem c2_amended_cid_initial_segment (db : DB) (bid : Nat)
    (uid gid cnid username content : String) (today : Int)
    (h : db.comments.filter (fun c => c.bid == bid) = []) (n : Nat) :
    ((insertCommentN db bid uid gid cnid username content today n).comments.filter
        (fun c => c.bid == bid)).map (fun c => c.cid) = List.range' 1 n
    ∧ nextCid (insertCommentN db bid uid gid cnid username content today n).comments bid
        = n + 1 := by
  induction n with
  | zero =>
    refine ⟨by rw [show insertCommentN db bid uid gid cnid username content today 0 = db from rfl, h]; rfl, ?_⟩
    unfold nextCid
    rw [show insertCommentN db bid uid gid cnid username content today 0 = db from rfl, h]
    rfl
  | succ k ih =>
    obtain ⟨ih1, ih2⟩ := ih
    have hstep : insertCommentN db bid uid gid cnid username content today (k + 1)
        = insertComment (insertCommentN db bid uid gid cnid username content today k)
            bid uid gid cnid username content today := rfl
    set dbk := insertCommentN db bid uid gid cnid username content today k with hdbk
    have hfilter :
        (insertComment dbk bid uid gid cnid username content today).comments.filter
            (fun c => c.bid == bid)
          = dbk.comments.filter (fun c => c.bid == bid) ++
            [⟨dbk.nextCommentId, nextCid dbk.comments bid, bid, uid, gid, cnid, username,
              content, today⟩] := by
      unfold insertComment
      rw [List.filter_append]
      congr 1
      simp
    have hmap :
        ((insertComment dbk bid uid gid cnid username content today).comments.filter
            (fun c => c.bid == bid)).map (fun c => c.cid)
          = List.range' 1 k ++ [k + 1] := by
      rw [hfilter, List.map_append, ih1, ih2]
      rfl
    have hrange : List.range' 1 (k + 1) = List.range' 1 k ++ [k + 1] := by
      rw [List.range'_concat]
      congr 1
      simp [Nat.add_comm]
    constructor
    · rw [hstep, hmap, hrange]
    · rw [hstep]
      unfold nextCid
      rw [hfilter]
      dsimp only []
      have hne : ((((dbk.comments.filter (fun c => c.bid == bid)) ++
          [(⟨dbk.nextCommentId, nextCid dbk.comments bid, bid, uid, gid, cnid, username,
            content, today⟩ : Comment)]).length == 0)) = false := by
        simp [List.length_append]
      rw [hne]
      simp only [Bool.false_eq_true, if_false]
      have hmap' :
          (((dbk.comments.filter (fun c => c.bid == bid)) ++
            [(⟨dbk.nextCommentId, nextCid dbk.comments bid, bid, uid, gid, cnid, username,
              content, today⟩ : Comment)]).map (fun c => c.cid))
            = List.range' 1 k ++ [k + 1] := by
        rw [List.map_append, ih1, ih2]
        rfl
      rw [hmap', List.foldr_append]
      have : List.foldr max 0 [k + 1] = k + 1 := by simp
      rw [this]
      have hbound : ∀ a ∈ List.range' 1 k, a ≤ k + 1 := by
        intro a ha
        have := List.mem_range'_1.mp ha
        omega
      rw [foldr_max_of_le _ _ hbound]

/-- C2 amended witness: three insertions on a comment-free bottle yield
cids `[1, 2, 3]` and a next cid of `4`. -/
theorem c2_witness :
    ((insertCommentN exDbNoComments 1 "u" "g" "c" "a" "x" 100 3).comments.filter
        (fun c => c.bid == 1)).map (fun c => c.cid) = List.range' 1 3
    ∧ nextCid (insertCommentN exDbNoComments 1 "u" "g" "c" "a" "x" 100 3).comments 1 = 3 + 1 :=
  c2_amended_cid_initial_segment exDbNoComments 1 "u" "g" "c" "a" "x" 100 (by decide) 3

/-! ### C8 amended -/

/-- Bumping the tally for `bid` turns a successful lookup of `id` into the
conditionally incremented value. -/
theorem lookup_bumpCounts (m : List (Nat × Int)) (bid id : Nat) (v : Int)
    (h : m.lookup id = some v) :
    (bumpCounts m bid).lookup id = some (if id = bid then v + 1 else v) := by
  induction m generalizing v with
  | nil => simp [List.lookup] at h
  | cons p t ih =>
    obtain ⟨k, w⟩ := p
    by_cases hik : id = k
    · subst hik
      rw [List.lookup_cons, beq_self_eq_true] at h
      have hv : some w = some v := h
      have hwv : w = v := by injection hv
      subst hwv
      by_cases hkb : id = bid
      · have hkb' : (id == bid) = true := beq_iff_eq.mpr hkb
        simp [bumpCounts, List.lookup_cons, hkb', hkb]
      · have hkb' : (id == bid) = false := beq_eq_false_iff_ne.mpr hkb
        simp [bumpCounts, List.lookup_cons, hkb', hkb]
    · have hik' : (id == k) = false := beq_eq_false_iff_ne.mpr hik
      have ht : List.lookup id t = some v := by
        rw [List.lookup_cons, hik'] at h
        exact h
      have hrec := ih v ht
      by_cases hkb : k = bid
      · have hik2 : (id == bid) = false := hkb ▸ hik'
        simpa [bumpCounts, List.lookup_cons, hkb, hik', hik2] using hrec
      · simpa [bumpCounts, List.lookup_cons, hkb, hik'] using hrec

/-- Folding the comment tally preserves and counts lookups: if `id`
resolves to `v` in the accumulator, after tallying `cs` it resolves to
`v` plus the number of comments of `id`. -/
theorem lookup_tally (cs : List Comment) (m : List (Nat × Int)) (id : Nat) (v : Int)
    (h : m.lookup id = some v) :
    (cs.foldl (fun acc c => bumpCounts acc c.bid) m).lookup id
      = some (v + ((cs.filter (fun c => c.bid == id)).length : Int)) := by
  induction cs generalizing m v with
  | nil => simpa using h
  | cons c t ih =>
    simp only [List.foldl_cons]
    have hstep := lookup_bumpCounts m c.bid id v h
    by_cases hcb : id = c.bid
    · have hcb' : (c.bid == id) = true := beq_iff_eq.mpr hcb.symm
      rw [if_pos hcb] at hstep
      have := ih (bumpCounts m c.bid) (v + 1) hstep
      rw [this]
      congr 1
      rw [List.filter_cons, if_pos hcb']
      simp only [List.length_cons]
      push_cast
      ring
    · have hcb' : (c.bid == id) = false := beq_eq_false_iff_ne.mpr (fun he => hcb he.symm)
      rw [if_neg hcb] at hstep
      have := ih (bumpCounts m c.bid) v hstep
      rw [this]
      congr 1
      rw [List.filter_cons, hcb']
      simp

/-- In the zero-initialized tally every stored bottle id resolves to 0. -/
theorem lookup_initCounts (bottles : List Bottle) (id : Nat)
    (h : id ∈ bottles.map (fun b => b.id)) :
    (initCounts bottles).lookup id = some 0 := by
  induction bottles with
  | nil => simp at h
  | cons b t ih =>
    by_cases hb : id = b.id
    · have hb' : (id == b.id) = true := beq_iff_eq.mpr hb
      simp [initCounts, List.lookup_cons, hb']
    · have hb' : (id == b.id) = false := beq_eq_false_iff_ne.mpr hb
      have hmem : id ∈ t.map (fun b => b.id) := by
        rcases List.mem_map.mp h with ⟨x, hx, hxe⟩
        rcases hx with _ | hx'
        · exact absurd hxe.symm hb
        · exact List.mem_map.mpr ⟨x, by assumption, hxe⟩
      have := ih hmem
      simpa [initCounts, List.lookup_cons, hb'] using this

/-- C8 amended: *when the first bottle row carries the sentinel `-1`* (the
condition the source actually tests), and every comment's `bid` names a
stored bottle (the situation in which the tally model is faithful: the
source would otherwise corrupt the tally with a `NaN` entry), the startup
backfill sets every bottle's `commentCount` to the number of comment rows
whose `bid` equals that bottle's id. -/
theorem c8_amended_backfill (db : DB) (b0 : Bottle) (t : List Bottle)
    (h0 : db.bottles = b0 :: t) (h1 : b0.commentCount = -1)
    (horph : ∀ c ∈ db.comments, c.bid ∈ db.bottles.map (fun b => b.id)) :
    (startupBackfill db).bottles.map (fun b => (b.id, b.commentCount))
      = db.bottles.map (fun b => (b.id, countFor db.comments b.id)) := by
  have hcc : (b0.commentCount == (-1 : Int)) = true := beq_iff_eq.mpr h1
  unfold startupBackfill
  rw [h0]
  simp only [List.head?_cons]
  rw [if_pos hcc]
  dsimp only []
  rw [List.map_map]
  rw [← h0]
  apply List.map_congr_left
  intro b hbmem
  have hmapmem : b.id ∈ db.bottles.map (fun b => b.id) := List.mem_map.mpr ⟨b, hbmem, rfl⟩
  have hinit := lookup_initCounts db.bottles b.id hmapmem
  have htal := lookup_tally db.comments (initCounts db.bottles) b.id 0 hinit
  simp only [Function.comp_apply]
  unfold tallied
  rw [htal]
  unfold countFor
  simp

/-- Store for the C8 witness: the first bottle still carries the sentinel,
the second has a stale count `5`, and both comments belong to bottle 2. -/
def exDbBackfill : DB :=
  ⟨[⟨1, "", "u", "g", "c", "a", "w", 0, -1, 100⟩, ⟨2, "", "u", "g", "c", "a", "v", 0, 5, 100⟩],
   [⟨1, 1, 2, "u", "g", "c", "a", "h", 100⟩, ⟨2, 2, 2, "u", "g", "c", "a", "i", 100⟩], 3, 3⟩

/-- C8 amended witness: with the sentinel on the first row, the backfill
rewrites both counts to the true per-bottle comment counts (0 and 2). -/
theorem c8_witness :
    (startupBackfill exDbBackfill).bottles.map (fun b => (b.id, b.commentCount))
      = exDbBackfill.bottles.map (fun b => (b.id, countFor exDbBackfill.comments b.id)) :=
  c8_amended_backfill exDbBackfill ⟨1, "", "u", "g", "c", "a", "w", 0, -1, 100⟩
    [⟨2, "", "u", "g", "c", "a", "v", 0, 5, 100⟩] rfl rfl (by decide)

/-! ### C5 amended -/

/-- C5 amended: explicit deletion (删除瓶子) removes every comment of the
bottle and unlinks exactly the locally stored assets referenced by the
bottle and its comments; the expiry sweep removes every comment of the
swept bottles but unlinks nothing; the confirmed purge of undeliverable
bottles (删除无效瓶子) removes only bottle rows and leaves every comment
row in place. -/
theorem c5_amended_cascade (cfg : Config) (uid : String) (parse : String → List Elem)
    (db : DB) (id : Nat) (b : Bottle) (bs : List Bottle)
    (hb : db.bottles.filter (fun x => x.id == id) = b :: bs)
    (hm : cfg.manager.contains uid = true)
    (today : Int) (days : Nat) (hd : days ≠ 0)
    (sends : Nat → Nat → Bool) (c1 c2 : String) (range : Option (Nat × Nat)) :
    (deleteBottle cfg uid parse db id).2.1.comments
        = db.comments.filter (fun c => !(c.bid == id))
    ∧ (deleteBottle cfg uid parse db id).2.2
        = localAssets parse b.content ++
          ((db.comments.filter (fun c => c.bid == id)).map
            (fun c => localAssets parse c.content)).flatten
    ∧ ((deleteExpiredBottles cfg uid today db days).2.1.comments.filter
        (fun c => (expiredIds db (today - (days : Int))).contains c.bid)) = []
    ∧ (deleteExpiredBottles cfg uid today db days).2.2 = []
    ∧ (deleteInvalidBottles cfg uid sends c1 c2 db range).2.comments = db.comments := by
  have hd' : (days == 0) = false := beq_eq_false_iff_ne.mpr hd
  refine ⟨?_, ?_, ?_, ?_, ?_⟩
  · unfold deleteBottle
    rw [hb]
    simp only [List.head?_cons]
    rw [hm]
    rfl
  · unfold deleteBottle
    rw [hb]
    simp only [List.head?_cons]
    rw [hm]
    rfl
  · unfold deleteExpiredBottles
    rw [hd', hm]
    dsimp only []
    by_cases hlen :
        (db.bottles.filter (fun b => decide (b.time < today - (days : Int)))).length < 1
    · rw [if_pos hlen]
      have hexp : db.bottles.filter (fun b => decide (b.time < today - (days : Int))) = [] :=
        List.length_eq_zero.mp (by omega)
      apply List.filter_eq_nil_iff.mpr
      intro c _
      unfold expiredIds
      rw [hexp]
      simp
    · rw [if_neg hlen]
      apply List.filter_eq_nil_iff.mpr
      intro c hc
      have h2 := (List.mem_filter.mp hc).2
      intro hq
      unfold expiredIds at hq
      rw [hq] at h2
      cases h2
  · unfold deleteExpiredBottles
    rw [hd', hm]
    dsimp only []
    (repeat' split) <;> rfl
  · unfold deleteInvalidBottles
    dsimp only []
    (repeat' split) <;> rfl

/-- C5 amended witness: instantiating the cascade theorem at the one-bottle
one-comment store: explicit deletion cascades (and unlinks nothing because
no content references local files), the expiry sweep (nothing expired at
threshold 5) deletes nothing, and the cancelled purge leaves the comment
row. -/
theorem c5_witness :
    (deleteBottle exCfg "m" (fun _ => []) exDb1 1).2.1.comments
        = exDb1.comments.filter (fun c => !(c.bid == 1))
    ∧ (deleteBottle exCfg "m" (fun _ => []) exDb1 1).2.2
        = localAssets (fun _ => []) exBottle1.content ++
          ((exDb1.comments.filter (fun c => c.bid == 1)).map
            (fun c => localAssets (fun _ => []) c.content)).flatten
    ∧ ((deleteExpiredBottles exCfg "m" 100 exDb1 5).2.1.comments.filter
        (fun c => (expiredIds exDb1 (100 - ((5 : Nat) : Int))).contains c.bid)) = []
    ∧ (deleteExpiredBottles exCfg "m" 100 exDb1 5).2.2 = []
    ∧ (deleteInvalidBottles exCfg "m" (fun _ _ => false) "否" "删除" exDb1 none).2.comments
        = exDb1.comments :=
  c5_amended_cascade exCfg "m" (fun _ => []) exDb1 1 exBottle1 [] (by decide) (by decide)
    100 5 (by decide) (fun _ _ => false) "否" "删除" none

/-! ### C7 amended -/

/-- C7 amended: for a nonempty non-numeric identifier, the outcome of
捞漂流瓶 is decided by the *page* of name matches selected by
`config.bottleLimit` and the requested page number (the full match set
when pagination is off): an empty page reports not-found, a page with
more than one row yields the disambiguation listing of ids and names, and
a page with exactly one row renders that bottle (given the first send
succeeds; `pick 0 1 = 0` states that drawing a random index from a
singleton yields its only position). -/
theorem c7_amended_page_outcome (cfg : Config) (db : DB) (s : String) (page : Option Nat)
    (isNum rm : String → Bool) (toNum : String → Nat)
    (pick : Nat → Nat → Nat) (sends : Nat → Bool)
    (hne : (s == "") = false) (hnn : isNum s = false)
    (hp : pick 0 1 = 0) (hs : sends 0 = true) :
    drawBottle cfg db (some s) page isNum rm toNum pick sends =
      ((if (pageSlice cfg.bottleLimit (page.getD 1)
            (sortById (db.bottles.filter (fun b => rm b.name)))).length < 1 then
          DrawOutcome.notFound
        else if (pageSlice cfg.bottleLimit (page.getD 1)
            (sortById (db.bottles.filter (fun b => rm b.name)))).length > 1 then
          DrawOutcome.listing
            ((pageSlice cfg.bottleLimit (page.getD 1)
              (sortById (db.bottles.filter (fun b => rm b.name)))).map
                (fun b => (b.id, b.name)))
            ((db.bottles.filter (fun b => rm b.name)).length)
        else
          DrawOutcome.rendered ((pageSlice cfg.bottleLimit (page.getD 1)
            (sortById (db.bottles.filter (fun b => rm b.name)))).headD default)), db) := by
  unfold drawBottle
  dsimp only []
  rw [hne]
  simp only [Bool.false_eq_true, if_false, hnn, Bool.not_false, if_true]
  by_cases h1 : (pageSlice cfg.bottleLimit (page.getD 1)
      (sortById (db.bottles.filter (fun b => rm b.name)))).length < 1
  · rw [if_pos h1, if_pos h1]
  · rw [if_neg h1, if_neg h1]
    by_cases h2 : (pageSlice cfg.bottleLimit (page.getD 1)
        (sortById (db.bottles.filter (fun b => rm b.name)))).length > 1
    · rw [if_pos h2, if_pos h2]
    · rw [if_neg h2, if_neg h2]
      obtain ⟨x, hx⟩ : ∃ x, pageSlice cfg.bottleLimit (page.getD 1)
          (sortById (db.bottles.filter (fun b => rm b.name))) = [x] :=
        List.length_eq_one.mp (by omega)
      rw [hx]
      unfold drawSendLoop
      rw [hs]
      simp only [if_true, List.length_cons, List.length_nil]
      rw [hp]
      rfl

/-- C7 amended witness: with pagination off and a matcher accepting only
the name `"abc"`, the single-match page renders bottle 1. -/
theorem c7_witness :
    drawBottle exCfg exDbNames (some "abc") none exIsNum (fun nm => nm == "abc") exToNum
        (fun _ _ => 0) (fun _ => true) =
      ((if (pageSlice exCfg.bottleLimit ((none : Option Nat).getD 1)
            (sortById (exDbNames.bottles.filter (fun b => (fun nm => nm == "abc") b.name)))).length < 1 then
          DrawOutcome.notFound
        else if (pageSlice exCfg.bottleLimit ((none : Option Nat).getD 1)
            (sortById (exDbNames.bottles.filter (fun b => (fun nm => nm == "abc") b.name)))).length > 1 then
          DrawOutcome.listing
            ((pageSlice exCfg.bottleLimit ((none : Option Nat).getD 1)
              (sortById (exDbNames.bottles.filter (fun b => (fun nm => nm == "abc") b.name)))).map
                (fun b => (b.id, b.name)))
            ((exDbNames.bottles.filter (fun b => (fun nm => nm == "abc") b.name)).length)
        else
          DrawOutcome.rendered ((pageSlice exCfg.bottleLimit ((none : Option Nat).getD 1)
            (sortById (exDbNames.bottles.filter (fun b => (fun nm => nm == "abc") b.name)))).headD
              default)), exDbNames) :=
  c7_amended_page_outcome exCfg exDbNames "abc" none exIsNum (fun nm => nm == "abc") exToNum
    (fun _ _ => 0) (fun _ => true) (by decide) rfl rfl rfl

end Driftbottle
